import Mathlib

/-!
Verification development for the QSL-CN repository.

The React frontend (src/frontend/src/App.jsx and the components under
src/frontend/src/components/) is embedded shallowly: the pure data flow of
each handler (URL construction, event-listener registration, SSE error
handling, history updates, chart data derivation) is transcribed into Lean
definitions, and the claimed properties are proved about those definitions.
The Python backend (cache layer, SSE producer pipeline) is not part of the
source tree; where a claim depends on it, the missing component is modelled
from the design specification, and the corresponding definition is marked
`Modelled from the spec` in its doc comment.
-/

namespace QSL

/-! ## JavaScript primitives used by the frontend code -/

/-- JS template-literal rendering of a boolean, as in `force=${force}`. -/
def boolStr : Bool → String
  | true => "true"
  | false => "false"

/-- Upper-case hexadecimal digit for a value below 16 (used by percent-encoding). -/
def hexDigit (n : Nat) : Char :=
  if n < 10 then Char.ofNat (48 + n) else Char.ofNat (55 + n)

/-- UTF-8 byte sequence of a Unicode scalar value. -/
def utf8Bytes (c : Char) : List Nat :=
  let n := c.toNat
  if n < 128 then [n]
  else if n < 2048 then [192 + n / 64, 128 + n % 64]
  else if n < 65536 then [224 + n / 4096, 128 + (n / 64) % 64, 128 + n % 64]
  else [240 + n / 262144, 128 + (n / 4096) % 64, 128 + (n / 64) % 64, 128 + n % 64]

/-- Characters left unescaped by JavaScript `encodeURIComponent`:
`A-Z a-z 0-9 - _ . ! ~ * ' ( )` (given here by code point). -/
def isURIUnreserved (c : Char) : Bool :=
  let n := c.toNat
  (97 ≤ n && n ≤ 122) || (65 ≤ n && n ≤ 90) || (48 ≤ n && n ≤ 57) ||
  n == 45 || n == 95 || n == 46 || n == 33 || n == 126 || n == 42 ||
  n == 39 || n == 40 || n == 41

/-- Percent-encoding of one byte, e.g. 37 becomes "%25". -/
def pctByte (b : Nat) : String :=
  String.mk [Char.ofNat 37, hexDigit (b / 16), hexDigit (b % 16)]

/-- Model of JavaScript `encodeURIComponent`: unreserved characters are kept,
every other character is replaced by the percent-encoding of its UTF-8 bytes. -/
def encodeURIComponent (s : String) : String :=
  String.join (s.data.map (fun c =>
    if isURIUnreserved c then String.mk [c]
    else String.join ((utf8Bytes c).map pctByte)))

/-- Model of JavaScript `String.prototype.includes`. -/
def jsIncludes (s sub : String) : Bool :=
  (s.splitOn sub).length != 1

/-- Minimal JSON value model: enough to express the request bodies and event
payloads the frontend builds and inspects. -/
inductive Json where
  | str (s : String)
  | bool (b : Bool)
  | num (n : Int)
  | obj (fields : List (String × Json))

/-- Truthiness test used by `if (d && Object.keys(d).length)`: a parsed payload
counts only when it is an object with at least one key. -/
def Json.isNonEmptyObj : Json → Bool
  | .obj (_ :: _) => true
  | _ => false

/-- HTTP methods used by the frontend. -/
inductive Method where
  | get
  | post
  | delete
  deriving DecidableEq, Repr

/-- An HTTP request issued through `fetch`: method, path (relative to the API
host prepended by `getApiUrl`) and optional JSON body. -/
structure HttpRequest where
  method : Method
  path : String
  body : Option Json

/-! ## src/frontend/src/App.jsx -/

namespace App

/-- `getApiUrl` from App.jsx: local hosts map to `http://localhost:8001`,
any other host keeps its name with port 8001. -/
def getApiUrl (host path : String) : String :=
  if host == "localhost" || host == "127.0.0.1" then
    "http://localhost:8001" ++ path
  else
    "http://" ++ host ++ ":8001" ++ path

/-- Path of the SSE stream opened by `analyze`:
`/analyze/stream?name=${encodeURIComponent(name)}&force=${force}`. -/
def analyzeStreamPath (name : String) (force : Bool) : String :=
  "/analyze/stream?name=" ++ encodeURIComponent name ++ "&force=" ++ boolStr force

/-- Event types `analyze` attaches listeners for, in source order. -/
def analyzeListenerEvents : List String :=
  ["progress", "result", "end", "error"]

/-- Path of the SSE stream opened by `analyzeHotspot`:
`/hotspot/stream?keyword=${encodeURIComponent(hotspotKeyword)}&force=${force}`. -/
def hotspotStreamPath (keyword : String) (force : Bool) : String :=
  "/hotspot/stream?keyword=" ++ encodeURIComponent keyword ++ "&force=" ++ boolStr force

/-- Event types `analyzeHotspot` in App.jsx attaches listeners for, in source
order: `result`, `end`, `error` (there is no `progress` or `start` listener). -/
def hotspotListenerEvents : List String :=
  ["result", "end", "error"]

end App

namespace HotspotAnalysis

/-- Path of the SSE stream opened by `analyzeHotspot` in HotspotAnalysis.jsx:
`/hotspot/stream?keyword=${encodeURIComponent(keyword.trim())}&force=false`. -/
def streamPath (keyword : String) : String :=
  "/hotspot/stream?keyword=" ++ encodeURIComponent keyword.trim ++ "&force=false"

/-- Event types the HotspotAnalysis component attaches listeners for, in
source order (`onerror` is the connection-error callback, not a listener). -/
def listenerEvents : List String :=
  ["start", "progress", "result", "error", "end"]

end HotspotAnalysis

/-- The SSE event vocabulary named by the specification for both analysis
streams: `progress`, `result`, `error`, `end`. -/
def specEventVocabulary : List String :=
  ["progress", "result", "error", "end"]

/-- Full URL opened by `analyze` in App.jsx (host-dependent prefix from
`getApiUrl`). -/
def App.analyzeStreamUrl (host name : String) (force : Bool) : String :=
  App.getApiUrl host (App.analyzeStreamPath name force)

/-- Full URL opened by `analyzeHotspot` in App.jsx. -/
def App.hotspotStreamUrl (host keyword : String) (force : Bool) : String :=
  App.getApiUrl host (App.hotspotStreamPath keyword force)

/-! ## SSE error handling and HTTP fallback (App.jsx, HotspotAnalysis.jsx) -/

/-- `maxRetry` constant of `analyze` in App.jsx. -/
def App.maxRetry : Nat := 3

/-- `retryDelay` constant (milliseconds) of `analyze` in App.jsx. -/
def App.retryDelay : Nat := 800

/-- What an SSE `error` listener decides to do. -/
inductive SseErrorAction where
  | ignore
  | retryStream (nextAttempt delayMs : Nat)
  | fallbackHttp

/-- The `error` listener installed by `startSse` in App.jsx `analyze`:
once `ended` it returns immediately; otherwise it closes the stream and either
retries (while `attempt + 1 <= maxRetry`) after `retryDelay * nextAttempt`
milliseconds, or falls back to the one-shot HTTP request. -/
def App.analyzeOnStreamError (ended : Bool) (attempt : Nat) : SseErrorAction :=
  if ended then .ignore
  else if attempt + 1 ≤ App.maxRetry then
    .retryStream (attempt + 1) (App.retryDelay * (attempt + 1))
  else .fallbackHttp

/-- The one-shot request issued by `fallbackOnce` in App.jsx `analyze`:
`POST /analyze` with body `JSON.stringify({ name, force })`. -/
def App.analyzeFallbackRequest (name : String) (force : Bool) : HttpRequest :=
  ⟨.post, "/analyze", some (.obj [("name", .str name), ("force", .bool force)])⟩

/-- The one-shot request issued by `fallback` in App.jsx `analyzeHotspot`:
`POST /hotspot` with body `JSON.stringify({ keyword, force })`. -/
def App.hotspotFallbackRequest (keyword : String) (force : Bool) : HttpRequest :=
  ⟨.post, "/hotspot", some (.obj [("keyword", .str keyword), ("force", .bool force)])⟩

/-- Outcome of a one-shot `fetch` as observed by the surrounding try/catch. -/
inductive FetchResult where
  | ok (payload : Json)
  /-- `res.ok` was false, so `throw new Error(await res.text())` ran. -/
  | httpError (text : String)
  /-- the fetch itself rejected (network failure), a JS `TypeError`. -/
  | networkError (detail : String)

/-- `String(e)` for the exception observed in the catch block of a fallback. -/
def jsErrorString : FetchResult → String
  | .ok _ => ""
  | .httpError t => if t == "" then "Error" else "Error: " ++ t
  | .networkError d => if d == "" then "TypeError" else "TypeError: " ++ d

/-- Component state written by a fallback: `data`/`hotspotData`, the error
message (empty string means no error shown) and the loading flag. -/
structure FallbackOutcome where
  data : Option Json
  error : String
  loading : Bool

/-- Error-message mapping in `fallbackOnce` of App.jsx `analyze`:
`msg.includes('TypeError')` selects the fixed unreachable-backend message. -/
def App.fallbackErrorMessage (msg : String) : String :=
  if jsIncludes msg "TypeError" then "网络/后端暂不可达（可能在重启），请稍后重试" else msg

/-- `fallbackOnce` of App.jsx `analyze`: on success store the payload, on
failure set the error message; `finally` always clears `loading`.
(The history write on success is modelled separately by `stockHistUpdate`.) -/
def App.analyzeFallbackOutcome : FetchResult → FallbackOutcome
  | .ok j => ⟨some j, "", false⟩
  | r => ⟨none, App.fallbackErrorMessage (jsErrorString r), false⟩

/-- `fallback` of App.jsx `analyzeHotspot`: like `fallbackOnce`, but the catch
block sets `setHotspotError(String(e))` directly. -/
def App.hotspotFallbackOutcome : FetchResult → FallbackOutcome
  | .ok j => ⟨some j, "", false⟩
  | r => ⟨none, jsErrorString r, false⟩

/-- The `error` listener of App.jsx `analyzeHotspot`: after `end` it does
nothing, otherwise it closes the stream and runs the HTTP fallback. -/
def App.hotspotOnStreamError (ended : Bool) (keyword : String) (force : Bool) :
    SseErrorAction × Option HttpRequest :=
  if ended then (.ignore, none)
  else (.fallbackHttp, some (App.hotspotFallbackRequest keyword force))

/-- Reaction of an SSE connection-error callback: whether the stream is
closed, the HTTP fallback request it issues (if any), the error message shown
and the loading flag afterwards. -/
structure ErrorReaction where
  closes : Bool
  fallbackRequest : Option HttpRequest
  errorMessage : String
  loading : Bool

/-- `eventSource.onerror` of HotspotAnalysis.jsx: sets the fixed error message
and clears loading, closes the source, and issues no HTTP request at all. -/
def HotspotAnalysis.onConnectionError : ErrorReaction :=
  ⟨true, none, "连接失败，请重试", false⟩

/-! ## Persisted history lists (App.jsx) -/

/-- An entry of the `qsl_history` list: `{ name, at: Date.now(), data }`.
The JS field `at` is a Lean keyword, rendered here as `atTime`. -/
structure StockHistItem where
  name : String
  atTime : Nat
  data : Option Json

/-- The history update performed by both `fallbackOnce` and the `end`
listener of App.jsx `analyze`:
`[item, ...history.filter(h => h.name !== name)].slice(0, 50)`. -/
def stockHistUpdate (name : String) (atTime : Nat) (data : Option Json)
    (history : List StockHistItem) : List StockHistItem :=
  ((⟨name, atTime, data⟩ : StockHistItem) ::
    history.filter (fun h => h.name != name)).take 50

/-- An entry of the `qsl_hotspot_history` list: `{ keyword, at, data }`. -/
structure HotspotHistItem where
  keyword : String
  atTime : Nat
  data : Option Json

/-- The history update performed by both the fallback and the `end` listener
of App.jsx `analyzeHotspot`:
`[item, ...hotspotHistory.filter(h => h.keyword !== keyword)].slice(0, 50)`. -/
def hotspotHistUpdate (keyword : String) (atTime : Nat) (data : Option Json)
    (history : List HotspotHistItem) : List HotspotHistItem :=
  ((⟨keyword, atTime, data⟩ : HotspotHistItem) ::
    history.filter (fun h => h.keyword != keyword)).take 50

/-- Stock history after a sequence of completed analyses (each given by its
name, timestamp and captured payload), starting from the empty persisted list. -/
def stockHistoryAfter (runs : List (String × Nat × Option Json)) : List StockHistItem :=
  runs.foldl (fun h run => stockHistUpdate run.1 run.2.1 run.2.2 h) []

/-- Hotspot history after a sequence of completed hotspot analyses, starting
from the empty persisted list. -/
def hotspotHistoryAfter (runs : List (String × Nat × Option Json)) : List HotspotHistItem :=
  runs.foldl (fun h run => hotspotHistUpdate run.1 run.2.1 run.2.2 h) []

/-! ## SSE consumer state machines (for the `end`-event claim) -/

/-- One server-sent event as dispatched to listeners: event type and parsed
JSON payload. -/
structure SseEvent where
  name : String
  data : Json

/-- Model of JS `array.slice(-n)`: the last `n` elements. -/
def jsSliceLast (n : Nat) (l : List α) : List α :=
  l.drop (l.length - n)

/-- State of the App.jsx `analyze` SSE consumer. `closed` records that
`es.close()` ran; `progress` keeps the raw payloads of progress events (the
Chinese line formatting of `formatProgress` is irrelevant to the properties
proved and is not transcribed). -/
structure StockConsumerState where
  closed : Bool
  ended : Bool
  loading : Bool
  data : Option Json
  captured : Option Json
  progress : List Json
  history : List StockHistItem

/-- The listeners installed by `startSse` in App.jsx `analyze`, as a
transition on the consumer state.  `name` is the analyzed entity and `now`
the `Date.now()` timestamp used for the history entry. -/
def stockConsumerHandle (name : String) (now : Nat)
    (s : StockConsumerState) (e : SseEvent) : StockConsumerState :=
  match e.name with
  | "progress" => { s with progress := jsSliceLast 200 (s.progress ++ [e.data]) }
  | "result" =>
      if e.data.isNonEmptyObj then { s with data := some e.data, captured := some e.data }
      else s
  | "end" =>
      { s with ended := true, closed := true, loading := false,
               history := stockHistUpdate name now s.captured s.history }
  | "error" => if s.ended then s else { s with closed := true }
  | _ => s

/-- State of the App.jsx `analyzeHotspot` SSE consumer. -/
structure AppHotspotConsumerState where
  closed : Bool
  ended : Bool
  loading : Bool
  data : Option Json
  captured : Option Json
  history : List HotspotHistItem

/-- The listeners installed by App.jsx `analyzeHotspot` (`result`, `end`,
`error`): the `end` listener saves to history only when `captured` is set. -/
def appHotspotConsumerHandle (keyword : String) (now : Nat)
    (s : AppHotspotConsumerState) (e : SseEvent) : AppHotspotConsumerState :=
  match e.name with
  | "result" =>
      if e.data.isNonEmptyObj then { s with data := some e.data, captured := some e.data }
      else s
  | "end" =>
      { s with ended := true, closed := true, loading := false,
               history := match s.captured with
                 | some c => hotspotHistUpdate keyword now (some c) s.history
                 | none => s.history }
  | "error" => if s.ended then s else { s with closed := true }
  | _ => s

/-- Field access on a parsed JSON object, `undefined` rendered as `none`. -/
def Json.getField (j : Json) (k : String) : Option Json :=
  match j with
  | .obj fields => fields.lookup k
  | _ => none

/-- JS string coercion used by string concatenation with a payload field. -/
def jsDisplayString : Option Json → String
  | some (.str s) => s
  | some (.bool b) => boolStr b
  | some (.num n) => toString n
  | some (.obj _) => "[object Object]"
  | none => "undefined"

/-- JS `a || b` for an optional string field (empty string is falsy). -/
def jsOrString (o : Option Json) (dflt : String) : String :=
  match o with
  | some (.str s) => if s == "" then dflt else s
  | _ => dflt

/-- State of the HotspotAnalysis.jsx SSE consumer. -/
structure HAConsumerState where
  closed : Bool
  loading : Bool
  error : String
  data : Option Json
  progressVal : Option Json
  progressMsg : String

/-- The listeners installed by HotspotAnalysis.jsx `analyzeHotspot`
(`start`, `progress`, `result`, `error`, `end`). -/
def haConsumerHandle (s : HAConsumerState) (e : SseEvent) : HAConsumerState :=
  match e.name with
  | "start" =>
      { s with progressMsg := "开始分析概念: " ++ jsDisplayString (e.data.getField "keyword") }
  | "progress" =>
      let s₁ := match e.data.getField "progress" with
        | some v => { s with progressVal := some v }
        | none => s
      match e.data.getField "message" with
      | some (.str m) => if m == "" then s₁ else { s₁ with progressMsg := m }
      | _ => s₁
  | "result" =>
      if e.data.isNonEmptyObj then { s with data := some e.data, progressMsg := "分析完成" }
      else s
  | "error" =>
      { s with error := jsOrString (e.data.getField "message") "分析失败",
               loading := false, closed := true }
  | "end" =>
      { s with loading := false, progressVal := some (.num 100), closed := true }
  | _ => s

/-- Event dispatch on a closed `EventSource` delivers nothing. -/
def dispatchEvent (closed : σ → Bool) (handle : σ → SseEvent → σ) (s : σ) (e : SseEvent) : σ :=
  if closed s then s else handle s e

/-- Run a consumer over a sequence of incoming events. -/
def runEvents (closed : σ → Bool) (handle : σ → SseEvent → σ) (s : σ) (es : List SseEvent) : σ :=
  es.foldl (dispatchEvent closed handle) s

/-! ## InteractiveKLineChart (src/frontend/src/components/FloatingChat.jsx) -/

/-- One element of the `predictions` array passed to the chart.
`actual_price` is `none` when the JS value is `null` or `undefined`. -/
structure Prediction where
  date : String
  predicted_price : ℚ
  actual_price : Option ℚ
  deriving DecidableEq

/-- `predictions.filter(p => p.actual_price !== null && p.actual_price !== undefined)`. -/
def historicalPredictions (predictions : List Prediction) : List Prediction :=
  predictions.filter (fun p => p.actual_price.isSome)

/-- `predictions.filter(p => p.actual_price === null || p.actual_price === undefined)`. -/
def futurePredictions (predictions : List Prediction) : List Prediction :=
  predictions.filter (fun p => !p.actual_price.isSome)

/-- A daily price bar of the `prices` array. The JS field `open` is a Lean
keyword, rendered here as `opn`. -/
structure PriceBar where
  opn : ℚ
  close : ℚ
  low : ℚ
  high : ℚ
  amount : ℚ
  trade_date : String

/-- `prices.slice(0, 60).reverse()` — the displayed candles. -/
def displayPrices (prices : List PriceBar) : List PriceBar :=
  (prices.take 60).reverse

/-- Model of JS `array.slice(start, stop)` for natural indices. -/
def jsSlice (start stop : Nat) (l : List α) : List α :=
  (l.drop start).take (stop - start)

/-- Model of `Number.prototype.toFixed(2)`: rounding to two decimal places
(the JS method yields a decimal string; only the rounded value matters here). -/
def toFixed2 (q : ℚ) : ℚ :=
  (round (q * 100) : ℤ) / 100

/-- The MA5 series of the chart:
`displayPrices.map((p, idx) => idx < 4 ? null :
   (displayPrices.slice(idx-4, idx+1).reduce((a, x) => a + x.close, 0) / 5).toFixed(2))`.
The callback ignores the element itself, so it is transcribed as a map over
the indices of `dp`. -/
def ma5 (dp : List PriceBar) : List (Option ℚ) :=
  (List.range dp.length).map (fun idx =>
    if idx < 4 then none
    else some (toFixed2
      ((jsSlice (idx - 4) (idx + 1) dp).foldl (fun acc item => acc + item.close) 0 / 5)))

/-! ## Streaming Reporter pipeline (backend, modelled from the spec) -/

/-- Modelled from the spec: the `ProgressEvent` of the Streaming Reporter
(§3, §4.3).  The backend producer (FastAPI app emitting the SSE events) is
not part of the source tree. -/
structure ProgressEvent where
  step_name : String
  payload : Json

/-- Modelled from the spec: the event sequence emitted by the backend for one
successful pipeline run (§4.3, §8): a `start` event, one `progress` event per
completed stage in order, the terminal `result` event carrying the snapshot,
then `end`. -/
def pipelineRun (stages : List ProgressEvent) (snapshot : Json) : List SseEvent :=
  ⟨"start", .obj []⟩ ::
    stages.map (fun st => (⟨"progress", st.payload⟩ : SseEvent)) ++
    (⟨"result", snapshot⟩ :: [⟨"end", .obj []⟩])

/-- The event-type trace a consumer observes. -/
def eventNames (es : List SseEvent) : List String :=
  es.map SseEvent.name

/-! ## Report generation via async task (MarketOverviewSimplified.jsx) -/

namespace MarketOverview

/-- Response to the task-creating `POST /reports/{type}`. -/
inductive CreateReportResponse where
  | httpError (status : Nat) (detail : Option String)
  | ok (success : Bool) (task_id : Option String)

/-- Non-terminal task states (`pending` / `processing` keep polling). -/
inductive TaskState where
  | pending
  | processing

/-- One response of `GET /reports/task/{id}`. -/
inductive TaskStatusResponse where
  | running (state : TaskState) (progress : Nat)
  | completed (progress : Nat) (report : Option Json)
  | failed (progress : Nat) (error : Option String)

/-- The task-creating request of `generateReport`. -/
def createReportRequest (ty : String) : HttpRequest :=
  ⟨.post, "/reports/" ++ ty, none⟩

/-- The polling request `GET /reports/task/${taskId}` of `pollTask`. -/
def taskStatusRequest (taskId : String) : HttpRequest :=
  ⟨.get, "/reports/task/" ++ taskId, none⟩

/-- `statusData.progress || 0`, shown via `setReportProgress`. -/
def statusProgress : TaskStatusResponse → Nat
  | .running _ p => p
  | .completed p _ => p
  | .failed p _ => p

/-- Requests issued by the polling loop: one status request per response,
stopping after the first terminal (`completed`/`failed`) response. -/
def pollRequests (taskId : String) : List TaskStatusResponse → List HttpRequest
  | [] => []
  | st :: rest =>
      taskStatusRequest taskId ::
        (match st with
         | .running _ _ => pollRequests taskId rest
         | _ => [])

/-- The status responses actually consumed by the polling loop. -/
def polledStatuses : List TaskStatusResponse → List TaskStatusResponse
  | [] => []
  | st :: rest =>
      st :: (match st with
             | .running _ _ => polledStatuses rest
             | _ => [])

/-- Terminal outcome of one `generateReport` call. -/
inductive RunOutcome where
  | reportShown (report : Json)
  | errorShown (msg : String)
  | stillPolling

/-- JS `o || dflt` for an optional string (empty string is falsy). -/
def jsOrElse (o : Option String) (dflt : String) : String :=
  match o with
  | some s => if s == "" then dflt else s
  | none => dflt

/-- Outcome of the polling loop of `pollTask`: `completed` with a report
shows it (`setCurrentReport`), `completed` without one throws `报告数据为空`,
`failed` throws `statusData.error || '报告生成失败'`; the thrown message is
shown by the outer catch via `setReportError`. -/
def pollOutcome : List TaskStatusResponse → RunOutcome
  | [] => .stillPolling
  | st :: rest =>
      match st with
      | .running _ _ => pollOutcome rest
      | .completed _ (some r) => .reportShown r
      | .completed _ none => .errorShown "报告数据为空"
      | .failed _ e => .errorShown (jsOrElse e "报告生成失败")

/-- Observable behaviour of one `generateReport` call: the requests issued,
the terminal outcome and the sequence of progress values displayed. -/
structure GenerateRun where
  requests : List HttpRequest
  outcome : RunOutcome
  progressUpdates : List Nat

/-- `generateReport` of MarketOverviewSimplified.jsx: create the task with
`POST /reports/{type}`; on `success` with a `task_id`, poll
`GET /reports/task/{id}` (immediately, then every 2 s) until the task
completes or fails, displaying each reported progress value. -/
def generateReport (ty : String) (createResp : CreateReportResponse)
    (statuses : List TaskStatusResponse) : GenerateRun :=
  match createResp with
  | .httpError status detail =>
      ⟨[createReportRequest ty],
        .errorShown (jsOrElse detail ("创建任务失败(" ++ toString status ++ ")")), []⟩
  | .ok success tid =>
      if success then
        match tid with
        | some taskId =>
            ⟨createReportRequest ty :: pollRequests taskId statuses,
              pollOutcome statuses,
              (polledStatuses statuses).map statusProgress⟩
        | none => ⟨[createReportRequest ty], .errorShown "任务创建失败", []⟩
      else ⟨[createReportRequest ty], .errorShown "任务创建失败", []⟩

end MarketOverview

/-! ## Cache layer (backend, modelled from the spec) -/

namespace Cache

/-- Modelled from the spec: a cache entry (§3).  The backend cache module
(`cache_config.py` and the module-level cache it configures) is not part of
the source tree. -/
structure CacheEntry where
  payload : Json
  fetched_at : Nat
  ttl_seconds : Nat

/-- Modelled from the spec: `now() - fetched_at < ttl_seconds` means the
entry is fresh and servable without re-fetch (§3). -/
def isFresh (now : Nat) (e : CacheEntry) : Bool :=
  decide (now - e.fetched_at < e.ttl_seconds)

/-- Modelled from the spec: `get_or_fetch(signature, ttl, fetch_fn, force)`
(§4.1).  The cache is a signature-indexed store; the third component of the
result counts how often `fetch_fn` was invoked by this call (0 or 1).
If `force` is set, always fetch and overwrite; else a fresh entry is returned
without fetching; else fetch, caching the result only on success. -/
def get_or_fetch (now : Nat) (cache : String → Option CacheEntry)
    (signature : String) (ttl : Nat) (fetch_fn : Except String Json)
    (force : Bool) :
    Except String Json × (String → Option CacheEntry) × Nat :=
  let fetchNow : Except String Json × (String → Option CacheEntry) × Nat :=
    match fetch_fn with
    | .ok v =>
        (.ok v, fun s => if s = signature then some ⟨v, now, ttl⟩ else cache s, 1)
    | .error e => (.error e, cache, 1)
  if force then fetchNow
  else
    match cache signature with
    | some entry =>
        if isFresh now entry then (.ok entry.payload, cache, 0) else fetchNow
    | none => fetchNow

end Cache

/-! ## Report deletion (src/frontend/src/components/ReportHistory.jsx) -/

namespace ReportHistory

/-- A persisted-report descriptor as listed by `/reports/history`. -/
structure ReportItem where
  type : String
  date : String

/-- The request issued by `deleteReport`:
`DELETE /reports/${item.type}?date=${item.date}`. -/
def deleteRequest (item : ReportItem) : HttpRequest :=
  ⟨.delete, "/reports/" ++ item.type ++ "?date=" ++ item.date, none⟩

/-- Response to the DELETE request as observed by `deleteReport`. -/
inductive DeleteResponse where
  | ok
  | notOk (status : Nat)
  | netError (msg : String)
  deriving DecidableEq

/-- Observable behaviour of one `deleteReport` call. -/
structure DeleteRun where
  requests : List HttpRequest
  reloaded : Bool
  alertMsg : Option String
  history : List Json

/-- `deleteReport` of ReportHistory.jsx: without user confirmation nothing
happens; otherwise issue the DELETE and, if it succeeded, reload the history
list (`loadHistory`, yielding the freshly fetched list); on any failure keep
the old list and alert the user. -/
def deleteReport (item : ReportItem) (confirmed : Bool) (resp : DeleteResponse)
    (oldHistory fetchedHistory : List Json) : DeleteRun :=
  if !confirmed then ⟨[], false, none, oldHistory⟩
  else
    match resp with
    | .ok => ⟨[deleteRequest item], true, none, fetchedHistory⟩
    | .notOk _ => ⟨[deleteRequest item], false, some "删除失败", oldHistory⟩
    | .netError m => ⟨[deleteRequest item], false, some ("删除失败: " ++ m), oldHistory⟩

end ReportHistory

/-! ## Helper lemmas -/

theorem string_append_ne_empty (s t : String) (h : s.length ≠ 0) : s ++ t ≠ "" := by
  intro he
  have hl := congrArg String.length he
  rw [String.length_append] at hl
  have h0 : String.length "" = 0 := rfl
  omega

theorem jsErrorString_ne_empty (r : FetchResult) (h : ∀ j, r ≠ .ok j) :
    jsErrorString r ≠ "" := by
  cases r with
  | ok j => exact absurd rfl (h j)
  | httpError t =>
      by_cases ht : t == ""
      · simp [jsErrorString, ht]
      · simp only [jsErrorString, ht, if_false]
        exact string_append_ne_empty "Error: " t (by decide)
  | networkError d =>
      by_cases hd : d == ""
      · simp [jsErrorString, hd]
      · simp only [jsErrorString, hd, if_false]
        exact string_append_ne_empty "TypeError: " d (by decide)

theorem fallbackErrorMessage_ne_empty (msg : String) (h : msg ≠ "") :
    App.fallbackErrorMessage msg ≠ "" := by
  unfold App.fallbackErrorMessage
  by_cases hinc : jsIncludes msg "TypeError"
  · simp [hinc]
  · simpa [hinc] using h

theorem runEvents_of_closed {σ : Type} (closed : σ → Bool) (handle : σ → SseEvent → σ)
    (s : σ) (h : closed s = true) (es : List SseEvent) :
    runEvents closed handle s es = s := by
  induction es with
  | nil => rfl
  | cons e es ih =>
      have hd : dispatchEvent closed handle s e = s := by simp [dispatchEvent, h]
      calc runEvents closed handle s (e :: es)
          = runEvents closed handle (dispatchEvent closed handle s e) es := rfl
        _ = runEvents closed handle s es := by rw [hd]
        _ = s := ih

theorem pairwise_key_update {α : Type} (key : α → String) (x : α) (k : String)
    (hx : key x = k) (l : List α)
    (hl : l.Pairwise (fun a b => key a ≠ key b)) :
    ((x :: l.filter (fun a => key a != k)).take 50).Pairwise (fun a b => key a ≠ key b) := by
  apply List.Pairwise.sublist (List.take_sublist _ _)
  refine List.Pairwise.cons ?_ (hl.filter _)
  intro b hb
  have hmem := List.mem_filter.mp hb
  have hbk : key b ≠ k := by simpa using hmem.2
  rw [hx]
  exact fun he => hbk he.symm

theorem foldl_preserves {α β : Type} (f : β → α → β) (P : β → Prop)
    (hf : ∀ b a, P b → P (f b a)) :
    ∀ (l : List α) (b : β), P b → P (l.foldl f b)
  | [], _, hb => hb
  | a :: l, b, hb => foldl_preserves f P hf l (f b a) (hf b a hb)

/-! ## Claim theorems -/

/-- C1 counterexample: the claim requires every SSE consumer to fall back to
a one-shot HTTP request when the stream errors, but the connection-error
callback of HotspotAnalysis.jsx issues no HTTP request at all. -/
theorem c1_claim_counterexample :
    ¬ ∃ req : HttpRequest, HotspotAnalysis.onConnectionError.fallbackRequest = some req := by
  simp [HotspotAnalysis.onConnectionError]

/-- C1 (amended): when an analysis SSE stream errors before `end`, the App.jsx
stock consumer retries up to `maxRetry` times and then issues the one-shot
`POST /analyze` with the same name and force, surfacing any failure as a
non-empty error message with loading cleared; the App.jsx hotspot consumer
falls back immediately to `POST /hotspot` with the same keyword and force,
surfacing failures likewise; the standalone HotspotAnalysis component surfaces
the fixed connection-error message and clears loading but issues no HTTP
fallback request. -/
theorem c1_sse_error_fallback :
    (∀ a : Nat, a < App.maxRetry →
      App.analyzeOnStreamError false a = .retryStream (a + 1) (App.retryDelay * (a + 1))) ∧
    (∀ a : Nat, App.maxRetry ≤ a → App.analyzeOnStreamError false a = .fallbackHttp) ∧
    (∀ name force, App.analyzeFallbackRequest name force =
      ⟨.post, "/analyze", some (.obj [("name", .str name), ("force", .bool force)])⟩) ∧
    (∀ r : FetchResult, (∀ j, r ≠ .ok j) →
      (App.analyzeFallbackOutcome r).error ≠ "" ∧ (App.analyzeFallbackOutcome r).loading = false) ∧
    (∀ keyword force, App.hotspotOnStreamError false keyword force =
      (.fallbackHttp, some (App.hotspotFallbackRequest keyword force))) ∧
    (∀ r : FetchResult, (∀ j, r ≠ .ok j) →
      (App.hotspotFallbackOutcome r).error ≠ "" ∧ (App.hotspotFallbackOutcome r).loading = false) ∧
    (HotspotAnalysis.onConnectionError.errorMessage ≠ "" ∧
      HotspotAnalysis.onConnectionError.loading = false ∧
      HotspotAnalysis.onConnectionError.closes = true ∧
      HotspotAnalysis.onConnectionError.fallbackRequest = none) := by
  refine ⟨?_, ?_, ?_, ?_, ?_, ?_, ?_⟩
  · intro a ha
    unfold App.analyzeOnStreamError
    rw [if_neg (by simp), if_pos (by simp only [App.maxRetry] at ha ⊢; omega)]
  · intro a ha
    unfold App.analyzeOnStreamError
    rw [if_neg (by simp), if_neg (by simp only [App.maxRetry] at ha ⊢; omega)]
  · intro name force; rfl
  · intro r hr
    refine ⟨?_, ?_⟩
    · cases r with
      | ok j => exact absurd rfl (hr j)
      | httpError t =>
          exact fallbackErrorMessage_ne_empty _ (jsErrorString_ne_empty _ hr)
      | networkError d =>
          exact fallbackErrorMessage_ne_empty _ (jsErrorString_ne_empty _ hr)
    · cases r with
      | ok j => exact absurd rfl (hr j)
      | httpError t => rfl
      | networkError d => rfl
  · intro keyword force; rfl
  · intro r hr
    refine ⟨?_, ?_⟩
    · cases r with
      | ok j => exact absurd rfl (hr j)
      | httpError t => exact jsErrorString_ne_empty _ hr
      | networkError d => exact jsErrorString_ne_empty _ hr
    · cases r with
      | ok j => exact absurd rfl (hr j)
      | httpError t => rfl
      | networkError d => rfl
  · exact ⟨by decide, rfl, rfl, rfl⟩

/-- C1 witness: the amended theorem applied at concrete inputs. -/
theorem c1_sse_error_fallback_witness :
    App.analyzeOnStreamError false 0 = .retryStream 1 (App.retryDelay * 1) ∧
    App.analyzeOnStreamError false 3 = .fallbackHttp ∧
    ((App.analyzeFallbackOutcome (.httpError "backend down")).error ≠ "" ∧
      (App.analyzeFallbackOutcome (.httpError "backend down")).loading = false) ∧
    App.hotspotOnStreamError false "AI" true =
      (.fallbackHttp, some (App.hotspotFallbackRequest "AI" true)) ∧
    ((App.hotspotFallbackOutcome (.networkError "")).error ≠ "" ∧
      (App.hotspotFallbackOutcome (.networkError "")).loading = false) :=
  ⟨c1_sse_error_fallback.1 0 (by decide),
   c1_sse_error_fallback.2.1 3 (by decide),
   c1_sse_error_fallback.2.2.2.1 (.httpError "backend down") (fun j h => by cases h),
   c1_sse_error_fallback.2.2.2.2.1 "AI" true,
   c1_sse_error_fallback.2.2.2.2.2.1 (.networkError "") (fun j h => by cases h)⟩

/-- C2: for a successful pipeline run, the emitted event-type sequence is
exactly `start`, then one `progress` per stage, then `result`, then `end`,
and no event type other than `progress` occurs more than once. -/
theorem c2_pipeline_event_order (stages : List ProgressEvent) (snapshot : Json) :
    eventNames (pipelineRun stages snapshot) =
      "start" :: (List.replicate stages.length "progress" ++ ["result", "end"]) ∧
    ∀ t : String, t ≠ "progress" →
      (eventNames (pipelineRun stages snapshot)).count t ≤ 1 := by
  have hshape : eventNames (pipelineRun stages snapshot) =
      "start" :: (List.replicate stages.length "progress" ++ ["result", "end"]) := by
    have hc : (SseEvent.name ∘ fun st : ProgressEvent => (⟨"progress", st.payload⟩ : SseEvent)) =
        fun _ => "progress" := rfl
    simp [eventNames, pipelineRun, hc, List.map_const']
  refine ⟨hshape, ?_⟩
  intro t ht
  have hp : ("progress" == t) = false := beq_eq_false_iff_ne.mpr (fun h => ht h.symm)
  rw [hshape, List.count_cons, List.count_append, List.count_replicate, hp,
    List.count_cons, List.count_cons, List.count_nil]
  by_cases h1 : t = "start"
  · subst h1; simp
  · by_cases h2 : t = "result"
    · subst h2; simp
    · by_cases h3 : t = "end"
      · subst h3; simp
      · simp [Ne.symm h1, Ne.symm h2, Ne.symm h3]

theorem mem_pollRequests (tid : String) :
    ∀ (sts : List MarketOverview.TaskStatusResponse) (r : HttpRequest),
      r ∈ MarketOverview.pollRequests tid sts → r = MarketOverview.taskStatusRequest tid := by
  intro sts
  induction sts with
  | nil => intro r hr; simp [MarketOverview.pollRequests] at hr
  | cons st rest ih =>
      intro r hr
      cases st with
      | running ts pg =>
          simp only [MarketOverview.pollRequests, List.mem_cons] at hr
          rcases hr with h | h
          · exact h
          · exact ih r h
      | completed p rep =>
          simp only [MarketOverview.pollRequests, List.mem_cons, List.not_mem_nil,
            or_false] at hr
          exact hr
      | failed p e =>
          simp only [MarketOverview.pollRequests, List.mem_cons, List.not_mem_nil,
            or_false] at hr
          exact hr

theorem pollOutcome_completed (p : Nat) (rep : Json) :
    ∀ (pre rest : List MarketOverview.TaskStatusResponse),
      (∀ st ∈ pre, ∃ ts pg, st = MarketOverview.TaskStatusResponse.running ts pg) →
      MarketOverview.pollOutcome
          (pre ++ MarketOverview.TaskStatusResponse.completed p (some rep) :: rest) =
        .reportShown rep := by
  intro pre
  induction pre with
  | nil => intro rest _; rfl
  | cons st pre ih =>
      intro rest hpre
      obtain ⟨ts, pg, hst⟩ := hpre st (by simp)
      subst hst
      exact ih rest (fun st h => hpre st (by simp [h]))

/-- C3: after the task-creating POST is accepted with a task id, the client
polls `GET /reports/task/{id}` with that id: every polling request addresses
that path, each polled status response's progress value is displayed in
order, and the first `completed` response's report becomes the shown result. -/
theorem c3_report_task_polling (ty tid : String) :
    (∀ statuses,
      (MarketOverview.generateReport ty (.ok true (some tid)) statuses).requests =
        MarketOverview.createReportRequest ty :: MarketOverview.pollRequests tid statuses) ∧
    (∀ statuses r, r ∈ MarketOverview.pollRequests tid statuses →
      r.method = .get ∧ r.path = "/reports/task/" ++ tid) ∧
    (∀ statuses,
      (MarketOverview.generateReport ty (.ok true (some tid)) statuses).progressUpdates =
        (MarketOverview.polledStatuses statuses).map MarketOverview.statusProgress) ∧
    (∀ pre rest (p : Nat) (rep : Json),
      (∀ st ∈ pre, ∃ ts pg, st = MarketOverview.TaskStatusResponse.running ts pg) →
      (MarketOverview.generateReport ty (.ok true (some tid))
          (pre ++ MarketOverview.TaskStatusResponse.completed p (some rep) :: rest)).outcome =
        .reportShown rep) := by
  refine ⟨fun _ => rfl, ?_, fun _ => rfl, ?_⟩
  · intro statuses r hr
    have h := mem_pollRequests tid statuses r hr
    subst h
    exact ⟨rfl, rfl⟩
  · intro pre rest p rep hpre
    show MarketOverview.pollOutcome _ = _
    exact pollOutcome_completed p rep pre rest hpre

/-- C3 witness: one pending poll, then completion with a report. -/
theorem c3_report_task_polling_witness :
    (MarketOverview.generateReport "morning" (.ok true (some "task-1"))
        [.running .pending 30, .completed 100 (some (.obj [("date", .str "2025-11-10")]))]).requests =
      MarketOverview.createReportRequest "morning" ::
        MarketOverview.pollRequests "task-1"
          [.running .pending 30, .completed 100 (some (.obj [("date", .str "2025-11-10")]))] ∧
    (MarketOverview.taskStatusRequest "task-1").method = .get ∧
    (MarketOverview.taskStatusRequest "task-1").path = "/reports/task/" ++ "task-1" ∧
    (MarketOverview.generateReport "morning" (.ok true (some "task-1"))
        [.running .pending 30, .completed 100 (some (.obj [("date", .str "2025-11-10")]))]).outcome =
      .reportShown (.obj [("date", .str "2025-11-10")]) := by
  have h := c3_report_task_polling "morning" "task-1"
  refine ⟨h.1 _, ?_, ?_, ?_⟩
  · exact (h.2.1 [.running .pending 30] (MarketOverview.taskStatusRequest "task-1")
      (by simp [MarketOverview.pollRequests])).1
  · exact (h.2.1 [.running .pending 30] (MarketOverview.taskStatusRequest "task-1")
      (by simp [MarketOverview.pollRequests])).2
  · exact h.2.2.2 [.running .pending 30] [] 100 (.obj [("date", .str "2025-11-10")])
      (fun st hst => by simp at hst; exact ⟨.pending, 30, hst⟩)

/-- C4: starting cold for a signature, two `get_or_fetch` calls within the
TTL window with `force = false` invoke the underlying fetch exactly once: the
first call fetches (count 1) and stores, the second returns the cached
payload without fetching (count 0). -/
theorem c4_cache_single_fetch (cache : String → Option Cache.CacheEntry)
    (sig : String) (ttl t1 t2 : Nat) (v : Json) (fetch2 : Except String Json)
    (hmiss : cache sig = none) (hwin : t2 - t1 < ttl) :
    (Cache.get_or_fetch t1 cache sig ttl (.ok v) false).1 = .ok v ∧
    (Cache.get_or_fetch t1 cache sig ttl (.ok v) false).2.2 = 1 ∧
    (Cache.get_or_fetch t2 (Cache.get_or_fetch t1 cache sig ttl (.ok v) false).2.1
        sig ttl fetch2 false).1 = .ok v ∧
    (Cache.get_or_fetch t2 (Cache.get_or_fetch t1 cache sig ttl (.ok v) false).2.1
        sig ttl fetch2 false).2.2 = 0 := by
  have h1 : Cache.get_or_fetch t1 cache sig ttl (.ok v) false =
      (.ok v, fun s => if s = sig then some ⟨v, t1, ttl⟩ else cache s, 1) := by
    simp [Cache.get_or_fetch, hmiss]
  rw [h1]
  refine ⟨rfl, rfl, ?_, ?_⟩
  · show (Cache.get_or_fetch t2 (fun s => if s = sig then some ⟨v, t1, ttl⟩ else cache s)
        sig ttl fetch2 false).1 = .ok v
    simp [Cache.get_or_fetch, Cache.isFresh, hwin]
  · show (Cache.get_or_fetch t2 (fun s => if s = sig then some ⟨v, t1, ttl⟩ else cache s)
        sig ttl fetch2 false).2.2 = 0
    simp [Cache.get_or_fetch, Cache.isFresh, hwin]

/-- C4 witness: prices signature, 300 s TTL, second call 100 s later. -/
theorem c4_cache_single_fetch_witness :
    (Cache.get_or_fetch 1000 (fun _ => none) "px:600519.SH" 300
        (.ok (.obj [("close", .num 1700)])) false).2.2 = 1 ∧
    (Cache.get_or_fetch 1100
        (Cache.get_or_fetch 1000 (fun _ => none) "px:600519.SH" 300
          (.ok (.obj [("close", .num 1700)])) false).2.1
        "px:600519.SH" 300 (.error "rate limited") false).1 = .ok (.obj [("close", .num 1700)]) ∧
    (Cache.get_or_fetch 1100
        (Cache.get_or_fetch 1000 (fun _ => none) "px:600519.SH" 300
          (.ok (.obj [("close", .num 1700)])) false).2.1
        "px:600519.SH" 300 (.error "rate limited") false).2.2 = 0 := by
  have h := c4_cache_single_fetch (fun _ => none) "px:600519.SH" 300 1000 1100
    (.obj [("close", .num 1700)]) (.error "rate limited") rfl (by omega)
  exact ⟨h.2.1, h.2.2.1, h.2.2.2⟩

/-- C5 counterexample: the claim has every analysis-stream consumer
subscribe to the whole `progress`/`result`/`error`/`end` vocabulary, but the
hotspot consumer in App.jsx installs no `progress` listener. -/
theorem c5_claim_counterexample :
    ¬ ∀ e ∈ specEventVocabulary, e ∈ App.hotspotListenerEvents := by
  decide

/-- C5 (amended): the stock consumer opens
`/analyze/stream?name=<URL-encoded name>&force=<bool>` (behind the
`getApiUrl` host prefix) and listens for `progress`, `result`, `end`,
`error`; the App.jsx hotspot consumer opens
`/hotspot/stream?keyword=<URL-encoded keyword>&force=<bool>` but listens only
for `result`, `end`, `error`; the HotspotAnalysis component opens
`/hotspot/stream?keyword=<URL-encoded trimmed keyword>&force=false` and
listens for `start`, `progress`, `result`, `error`, `end`. -/
theorem c5_stream_urls_and_listeners :
    (∀ host name force, ∃ h : String,
      App.analyzeStreamUrl host name force =
        "http://" ++ h ++ ":8001" ++
          ("/analyze/stream?name=" ++ encodeURIComponent name ++ "&force=" ++ boolStr force)) ∧
    (∀ host keyword force, ∃ h : String,
      App.hotspotStreamUrl host keyword force =
        "http://" ++ h ++ ":8001" ++
          ("/hotspot/stream?keyword=" ++ encodeURIComponent keyword ++ "&force=" ++ boolStr force)) ∧
    (∀ keyword, HotspotAnalysis.streamPath keyword =
      "/hotspot/stream?keyword=" ++ encodeURIComponent keyword.trim ++ "&force=false") ∧
    App.analyzeListenerEvents = ["progress", "result", "end", "error"] ∧
    (∀ e ∈ specEventVocabulary, e ∈ App.analyzeListenerEvents) ∧
    App.hotspotListenerEvents = ["result", "end", "error"] ∧
    "progress" ∉ App.hotspotListenerEvents ∧
    HotspotAnalysis.listenerEvents = ["start", "progress", "result", "error", "end"] ∧
    (∀ e ∈ specEventVocabulary, e ∈ HotspotAnalysis.listenerEvents) := by
  refine ⟨?_, ?_, fun _ => rfl, rfl, by decide, rfl, by decide, rfl, by decide⟩
  · intro host name force
    unfold App.analyzeStreamUrl App.getApiUrl
    by_cases hh : (host == "localhost" || host == "127.0.0.1") = true
    · exact ⟨"localhost", by rw [if_pos hh]; rfl⟩
    · exact ⟨host, by rw [if_neg hh]; rfl⟩
  · intro host keyword force
    unfold App.hotspotStreamUrl App.getApiUrl
    by_cases hh : (host == "localhost" || host == "127.0.0.1") = true
    · exact ⟨"localhost", by rw [if_pos hh]; rfl⟩
    · exact ⟨host, by rw [if_neg hh]; rfl⟩

/-- C5 witness: the amended theorem applied at a LAN host and a concrete
vocabulary event. -/
theorem c5_stream_urls_and_listeners_witness :
    (∃ h : String,
      App.analyzeStreamUrl "192.168.1.5" "贵州茅台" true =
        "http://" ++ h ++ ":8001" ++
          ("/analyze/stream?name=" ++ encodeURIComponent "贵州茅台" ++ "&force=" ++
            boolStr true)) ∧
    "result" ∈ App.analyzeListenerEvents ∧
    "result" ∈ HotspotAnalysis.listenerEvents :=
  ⟨c5_stream_urls_and_listeners.1 "192.168.1.5" "贵州茅台" true,
   c5_stream_urls_and_listeners.2.2.2.2.1 "result" (by decide),
   c5_stream_urls_and_listeners.2.2.2.2.2.2.2.2 "result" (by decide)⟩

/-- C6: every frontend SSE consumer's `end` listener closes the EventSource
and clears the loading flag, and once closed no further event on that stream
changes the consumer state. -/
theorem c6_end_event_closes_stream :
    (∀ (name : String) (now : Nat) (s : StockConsumerState) (d : Json) (es : List SseEvent),
      s.closed = false →
      dispatchEvent (fun st => st.closed) (stockConsumerHandle name now) s ⟨"end", d⟩ =
        stockConsumerHandle name now s ⟨"end", d⟩ ∧
      (stockConsumerHandle name now s ⟨"end", d⟩).closed = true ∧
      (stockConsumerHandle name now s ⟨"end", d⟩).loading = false ∧
      runEvents (fun st => st.closed) (stockConsumerHandle name now)
          (stockConsumerHandle name now s ⟨"end", d⟩) es =
        stockConsumerHandle name now s ⟨"end", d⟩) ∧
    (∀ (keyword : String) (now : Nat) (s : AppHotspotConsumerState) (d : Json) (es : List SseEvent),
      s.closed = false →
      dispatchEvent (fun st => st.closed) (appHotspotConsumerHandle keyword now) s ⟨"end", d⟩ =
        appHotspotConsumerHandle keyword now s ⟨"end", d⟩ ∧
      (appHotspotConsumerHandle keyword now s ⟨"end", d⟩).closed = true ∧
      (appHotspotConsumerHandle keyword now s ⟨"end", d⟩).loading = false ∧
      runEvents (fun st => st.closed) (appHotspotConsumerHandle keyword now)
          (appHotspotConsumerHandle keyword now s ⟨"end", d⟩) es =
        appHotspotConsumerHandle keyword now s ⟨"end", d⟩) ∧
    (∀ (s : HAConsumerState) (d : Json) (es : List SseEvent),
      s.closed = false →
      dispatchEvent (fun st => st.closed) haConsumerHandle s ⟨"end", d⟩ =
        haConsumerHandle s ⟨"end", d⟩ ∧
      (haConsumerHandle s ⟨"end", d⟩).closed = true ∧
      (haConsumerHandle s ⟨"end", d⟩).loading = false ∧
      runEvents (fun st => st.closed) haConsumerHandle (haConsumerHandle s ⟨"end", d⟩) es =
        haConsumerHandle s ⟨"end", d⟩) := by
  refine ⟨?_, ?_, ?_⟩
  · intro name now s d es h
    refine ⟨by simp [dispatchEvent, h], rfl, rfl, ?_⟩
    exact runEvents_of_closed _ _ _ rfl es
  · intro keyword now s d es h
    refine ⟨by simp [dispatchEvent, h], rfl, rfl, ?_⟩
    exact runEvents_of_closed _ _ _ rfl es
  · intro s d es h
    refine ⟨by simp [dispatchEvent, h], rfl, rfl, ?_⟩
    exact runEvents_of_closed _ _ _ rfl es

/-- C6 witness: the three consumers at concrete open states. -/
theorem c6_end_event_closes_stream_witness :
    (stockConsumerHandle "贵州茅台" 0
        ⟨false, false, true, none, none, [], []⟩ ⟨"end", .obj []⟩).closed = true ∧
    (appHotspotConsumerHandle "脑机" 0
        ⟨false, false, true, none, none, []⟩ ⟨"end", .obj []⟩).loading = false ∧
    runEvents (fun st => st.closed) haConsumerHandle
        (haConsumerHandle ⟨false, true, "", none, none, ""⟩ ⟨"end", .obj []⟩)
        [⟨"result", .obj [("keyword", .str "AI")]⟩] =
      haConsumerHandle ⟨false, true, "", none, none, ""⟩ ⟨"end", .obj []⟩ :=
  ⟨(c6_end_event_closes_stream.1 "贵州茅台" 0
      ⟨false, false, true, none, none, [], []⟩ (.obj []) [] rfl).2.1,
   (c6_end_event_closes_stream.2.1 "脑机" 0
      ⟨false, false, true, none, none, []⟩ (.obj []) [] rfl).2.2.1,
   (c6_end_event_closes_stream.2.2 ⟨false, true, "", none, none, ""⟩ (.obj [])
      [⟨"result", .obj [("keyword", .str "AI")]⟩] rfl).2.2.2⟩

/-- C7: a user-confirmed deletion issues exactly
`DELETE /reports/{type}?date={date}`; on success the history list is
reloaded, on failure the list is left unchanged and the user is alerted;
without confirmation no request is issued. -/
theorem c7_delete_report (item : ReportHistory.ReportItem)
    (resp : ReportHistory.DeleteResponse) (old fetched : List Json) :
    (ReportHistory.deleteReport item true resp old fetched).requests =
      [ReportHistory.deleteRequest item] ∧
    (ReportHistory.deleteRequest item).method = .delete ∧
    (ReportHistory.deleteRequest item).path =
      "/reports/" ++ item.type ++ "?date=" ++ item.date ∧
    (resp = .ok →
      (ReportHistory.deleteReport item true resp old fetched).reloaded = true ∧
      (ReportHistory.deleteReport item true resp old fetched).history = fetched ∧
      (ReportHistory.deleteReport item true resp old fetched).alertMsg = none) ∧
    (resp ≠ .ok →
      (ReportHistory.deleteReport item true resp old fetched).reloaded = false ∧
      (ReportHistory.deleteReport item true resp old fetched).history = old ∧
      (ReportHistory.deleteReport item true resp old fetched).alertMsg ≠ none) ∧
    (ReportHistory.deleteReport item false resp old fetched).requests = [] := by
  refine ⟨?_, rfl, rfl, ?_, ?_, rfl⟩
  · cases resp <;> rfl
  · intro h; subst h; exact ⟨rfl, rfl, rfl⟩
  · intro h
    cases resp with
    | ok => exact absurd rfl h
    | notOk status => exact ⟨rfl, rfl, by simp [ReportHistory.deleteReport]⟩
    | netError m => exact ⟨rfl, rfl, by simp [ReportHistory.deleteReport]⟩

/-- C7 witness: a confirmed deletion of the 2025-11-10 morning report, once
succeeding and once failing with HTTP 500. -/
theorem c7_delete_report_witness :
    (ReportHistory.deleteReport ⟨"morning", "2025-11-10"⟩ true .ok
        [] [.str "fresh"]).history = [.str "fresh"] ∧
    (ReportHistory.deleteReport ⟨"morning", "2025-11-10"⟩ true (.notOk 500)
        [.str "old"] [.str "fresh"]).history = [.str "old"] ∧
    (ReportHistory.deleteReport ⟨"morning", "2025-11-10"⟩ true (.notOk 500)
        [.str "old"] [.str "fresh"]).alertMsg ≠ none :=
  ⟨((c7_delete_report ⟨"morning", "2025-11-10"⟩ .ok [] [.str "fresh"]).2.2.2.1 rfl).2.1,
   ((c7_delete_report ⟨"morning", "2025-11-10"⟩ (.notOk 500) [.str "old"]
      [.str "fresh"]).2.2.2.2.1 (by decide)).2.1,
   ((c7_delete_report ⟨"morning", "2025-11-10"⟩ (.notOk 500) [.str "old"]
      [.str "fresh"]).2.2.2.2.1 (by decide)).2.2⟩

/-- C8: after any non-empty sequence of completed analyses starting from the
empty persisted list, both history lists hold at most 50 entries, at most one
entry per name (resp. keyword), and start with the most recent item. -/
theorem c8_history_bounded_unique_mru
    (runs : List (String × Nat × Option Json)) (r : String × Nat × Option Json) :
    (stockHistoryAfter (runs ++ [r])).length ≤ 50 ∧
    (stockHistoryAfter (runs ++ [r])).head? = some ⟨r.1, r.2.1, r.2.2⟩ ∧
    (stockHistoryAfter (runs ++ [r])).Pairwise (fun x y => x.name ≠ y.name) ∧
    (hotspotHistoryAfter (runs ++ [r])).length ≤ 50 ∧
    (hotspotHistoryAfter (runs ++ [r])).head? = some ⟨r.1, r.2.1, r.2.2⟩ ∧
    (hotspotHistoryAfter (runs ++ [r])).Pairwise (fun x y => x.keyword ≠ y.keyword) := by
  have hs : stockHistoryAfter (runs ++ [r]) =
      stockHistUpdate r.1 r.2.1 r.2.2 (stockHistoryAfter runs) := by
    unfold stockHistoryAfter
    rw [List.foldl_append]
    rfl
  have hh : hotspotHistoryAfter (runs ++ [r]) =
      hotspotHistUpdate r.1 r.2.1 r.2.2 (hotspotHistoryAfter runs) := by
    unfold hotspotHistoryAfter
    rw [List.foldl_append]
    rfl
  have hsp : (stockHistoryAfter runs).Pairwise (fun x y => x.name ≠ y.name) := by
    unfold stockHistoryAfter
    refine foldl_preserves _
      (fun l : List StockHistItem => l.Pairwise (fun x y => x.name ≠ y.name)) ?_ runs []
      List.Pairwise.nil
    intro l run hl
    exact pairwise_key_update (fun x : StockHistItem => x.name)
      ⟨run.1, run.2.1, run.2.2⟩ run.1 rfl l hl
  have hhp : (hotspotHistoryAfter runs).Pairwise (fun x y => x.keyword ≠ y.keyword) := by
    unfold hotspotHistoryAfter
    refine foldl_preserves _
      (fun l : List HotspotHistItem => l.Pairwise (fun x y => x.keyword ≠ y.keyword)) ?_ runs []
      List.Pairwise.nil
    intro l run hl
    exact pairwise_key_update (fun x : HotspotHistItem => x.keyword)
      ⟨run.1, run.2.1, run.2.2⟩ run.1 rfl l hl
  rw [hs, hh]
  refine ⟨List.length_take_le _ _, rfl, ?_, List.length_take_le _ _, rfl, ?_⟩
  · exact pairwise_key_update (fun x : StockHistItem => x.name) _ r.1 rfl _ hsp
  · exact pairwise_key_update (fun x : HotspotHistItem => x.keyword) _ r.1 rfl _ hhp

/-- C9: the derived `historical` and `future` sets partition the predictions
array: membership in `historical` is equivalent to a present `actual_price`,
membership in `future` to an absent one, the two are disjoint, and every
element of the input lands in one of them. -/
theorem c9_predictions_partition (predictions : List Prediction) (p : Prediction) :
    (p ∈ historicalPredictions predictions ↔
      p ∈ predictions ∧ p.actual_price.isSome = true) ∧
    (p ∈ futurePredictions predictions ↔ p ∈ predictions ∧ p.actual_price = none) ∧
    ¬ (p ∈ historicalPredictions predictions ∧ p ∈ futurePredictions predictions) ∧
    (p ∈ predictions →
      p ∈ historicalPredictions predictions ∨ p ∈ futurePredictions predictions) := by
  refine ⟨?_, ?_, ?_, ?_⟩
  · simp [historicalPredictions, List.mem_filter]
  · cases hp : p.actual_price <;>
      simp [futurePredictions, List.mem_filter, hp]
  · rintro ⟨h1, h2⟩
    rw [historicalPredictions, List.mem_filter] at h1
    rw [futurePredictions, List.mem_filter] at h2
    rw [h1.2] at h2
    simp at h2
  · intro hp
    by_cases h : p.actual_price.isSome
    · left
      rw [historicalPredictions, List.mem_filter]
      exact ⟨hp, h⟩
    · right
      rw [futurePredictions, List.mem_filter]
      exact ⟨hp, by simp [h]⟩

/-- C9 witness: a two-element predictions array, one backtested point and one
future point. -/
theorem c9_predictions_partition_witness :
    (⟨"2025-11-07", 100, some 101⟩ : Prediction) ∈
        [(⟨"2025-11-07", 100, some 101⟩ : Prediction), ⟨"2025-11-11", 102, none⟩] ∧
    ((⟨"2025-11-07", 100, some 101⟩ : Prediction) ∈
        historicalPredictions [⟨"2025-11-07", 100, some 101⟩, ⟨"2025-11-11", 102, none⟩] ∨
      (⟨"2025-11-07", 100, some 101⟩ : Prediction) ∈
        futurePredictions [⟨"2025-11-07", 100, some 101⟩, ⟨"2025-11-11", 102, none⟩]) :=
  ⟨by decide,
   (c9_predictions_partition [⟨"2025-11-07", 100, some 101⟩, ⟨"2025-11-11", 102, none⟩]
      ⟨"2025-11-07", 100, some 101⟩).2.2.2 (by decide)⟩

theorem jsSlice_five (dp : List PriceBar) (i : Nat) (h4 : 4 ≤ i) (hi : i < dp.length) :
    jsSlice (i - 4) (i + 1) dp =
      [dp.get ⟨i - 4, by omega⟩, dp.get ⟨i - 3, by omega⟩, dp.get ⟨i - 2, by omega⟩,
        dp.get ⟨i - 1, by omega⟩, dp.get ⟨i, hi⟩] := by
  unfold jsSlice
  have h5 : i + 1 - (i - 4) = 5 := by omega
  rw [h5]
  apply List.ext_getElem?
  intro n
  match n with
  | 0 =>
      rw [List.getElem?_take_of_lt (by omega), List.getElem?_drop,
        (by omega : i - 4 + 0 = i - 4), List.getElem?_eq_getElem (by omega)]
      rfl
  | 1 =>
      rw [List.getElem?_take_of_lt (by omega), List.getElem?_drop,
        (by omega : i - 4 + 1 = i - 3), List.getElem?_eq_getElem (by omega)]
      rfl
  | 2 =>
      rw [List.getElem?_take_of_lt (by omega), List.getElem?_drop,
        (by omega : i - 4 + 2 = i - 2), List.getElem?_eq_getElem (by omega)]
      rfl
  | 3 =>
      rw [List.getElem?_take_of_lt (by omega), List.getElem?_drop,
        (by omega : i - 4 + 3 = i - 1), List.getElem?_eq_getElem (by omega)]
      rfl
  | 4 =>
      rw [List.getElem?_take_of_lt (by omega), List.getElem?_drop,
        (by omega : i - 4 + 4 = i), List.getElem?_eq_getElem hi]
      rfl
  | n + 5 =>
      rw [List.getElem?_take_eq_none (by omega)]
      rfl

theorem ma5_getElem? (dp : List PriceBar) (i : Nat) (hi : i < dp.length) :
    (ma5 dp)[i]? = some (if i < 4 then none
      else some (toFixed2
        ((jsSlice (i - 4) (i + 1) dp).foldl (fun acc item => acc + item.close) 0 / 5))) := by
  unfold ma5
  rw [List.getElem?_map, List.getElem?_range hi]
  rfl

/-- C10: the chart displays the first 60 price rows reversed (at most 60
candles); the MA5 series is `null` below index 4, and at every displayed
index `i ≥ 4` it is the two-decimal rounding of the arithmetic mean of the
close prices at displayed indices `i-4` through `i`. -/
theorem c10_kline_ma5 (prices : List PriceBar) :
    displayPrices prices = (prices.take 60).reverse ∧
    (displayPrices prices).length ≤ 60 ∧
    (∀ i, i < (displayPrices prices).length → i < 4 →
      (ma5 (displayPrices prices))[i]? = some none) ∧
    (∀ i, ∀ hi : i < (displayPrices prices).length, 4 ≤ i →
      (ma5 (displayPrices prices))[i]? = some (some (toFixed2
        ((((displayPrices prices).get ⟨i - 4, by omega⟩).close +
          ((displayPrices prices).get ⟨i - 3, by omega⟩).close +
          ((displayPrices prices).get ⟨i - 2, by omega⟩).close +
          ((displayPrices prices).get ⟨i - 1, by omega⟩).close +
          ((displayPrices prices).get ⟨i, hi⟩).close) / 5)))) := by
  refine ⟨rfl, ?_, ?_, ?_⟩
  · simp [displayPrices]
  · intro i hlen hlt
    rw [ma5_getElem? _ _ hlen]
    simp [hlt]
  · intro i hi h4
    rw [ma5_getElem? _ _ hi, jsSlice_five (displayPrices prices) i h4 hi]
    have hnot : ¬ i < 4 := by omega
    simp only [hnot, if_false, List.foldl_cons, List.foldl_nil, zero_add]

/-- C10 witness: five price bars with closes 1..5; at displayed index 4 the
MA5 value is the mean 3. -/
theorem c10_kline_ma5_witness :
    4 < (displayPrices
        [⟨10, 5, 9, 11, 1000, "20251107"⟩, ⟨10, 4, 9, 11, 1000, "20251106"⟩,
          ⟨10, 3, 9, 11, 1000, "20251105"⟩, ⟨10, 2, 9, 11, 1000, "20251104"⟩,
          ⟨10, 1, 9, 11, 1000, "20251103"⟩]).length ∧
    (ma5 (displayPrices
        [⟨10, 5, 9, 11, 1000, "20251107"⟩, ⟨10, 4, 9, 11, 1000, "20251106"⟩,
          ⟨10, 3, 9, 11, 1000, "20251105"⟩, ⟨10, 2, 9, 11, 1000, "20251104"⟩,
          ⟨10, 1, 9, 11, 1000, "20251103"⟩]))[4]? = some (some 3) := by
  refine ⟨by decide, ?_⟩
  have h := (c10_kline_ma5
      [⟨10, 5, 9, 11, 1000, "20251107"⟩, ⟨10, 4, 9, 11, 1000, "20251106"⟩,
        ⟨10, 3, 9, 11, 1000, "20251105"⟩, ⟨10, 2, 9, 11, 1000, "20251104"⟩,
        ⟨10, 1, 9, 11, 1000, "20251103"⟩]).2.2.2 4 (by decide) (by decide)
  rw [h]
  show some (some (toFixed2 (((1 : ℚ) + 2 + 3 + 4 + 5) / 5))) = some (some 3)
  norm_num [toFixed2]

/-- C2 witness: the order theorem applied to a one-stage run. -/
theorem c2_pipeline_event_order_witness :
    eventNames (pipelineRun [⟨"resolve:done", .obj []⟩] (.obj [("score", .num 80)])) =
      "start" :: (List.replicate 1 "progress" ++ ["result", "end"]) ∧
    (eventNames (pipelineRun [⟨"resolve:done", .obj []⟩] (.obj [("score", .num 80)]))).count "end" ≤ 1 :=
  ⟨(c2_pipeline_event_order [⟨"resolve:done", .obj []⟩] (.obj [("score", .num 80)])).1,
   (c2_pipeline_event_order [⟨"resolve:done", .obj []⟩] (.obj [("score", .num 80)])).2
     "end" (by decide)⟩

end QSL
